import Mathlib

/-!
Verification of the MikanOS kernel core (kernel/src/main.rs) against its
natural-language specification.

The kernel's `main.rs` is the authoritative source for the boot sequence
(`kernel_entry`), the EHCI-to-xHCI handoff (`switch_ehci2xhci`), the xHCI
interrupt handler (`int_handler_xhci`) and the dispatch loop.  The modules
`queue.rs`, `pci.rs`, `interrupt.rs` and `usb.rs` are referenced by
`main.rs` but their sources are not available; the data types and
operations they provide (`ArrayQueue`, `Device`, `Message`, the xHCI
`Controller`) are modelled from the specification, as marked in their
doc comments.
-/

/-- Modelled from the spec: `MessageType` from `interrupt.rs` (not among the
sources).  It currently has the single variant `InteruptXHCI` (spelling as in
`main.rs`). -/
inductive MessageType where
  | InteruptXHCI
deriving DecidableEq, Inhabited

/-- Modelled from the spec: `Message` from `interrupt.rs` (not among the
sources): a small fixed-size tagged value carried through the queue, with
constructor `new` and accessor `type`. -/
structure Message where
  type : MessageType
deriving DecidableEq, Inhabited

/-- Constructor `Message::new` as used by `int_handler_xhci`. -/
def Message.new (t : MessageType) : Message := ⟨t⟩

/-- Result of `ArrayQueue::push`: `Ok(())` or an overflow error. -/
inductive QueueResult where
  | ok
  | overflow
deriving DecidableEq, Inhabited

/-- Modelled from the spec: `ArrayQueue<T>` from `queue.rs` (not among the
sources): a ring buffer over an externally supplied fixed-size buffer, with
read/write positions and a length counter.  The buffer is modelled as a list
of elements whose length is the queue's capacity. -/
structure ArrayQueue (α : Type) where
  buf : List α
  readPos : Nat
  writePos : Nat
  count : Nat
deriving DecidableEq

/-- The queue's capacity: the number of elements its buffer can hold. -/
def ArrayQueue.capacity (q : ArrayQueue α) : Nat := q.buf.length

/-- Modelled from the spec: `len()` is a non-blocking size probe. -/
def ArrayQueue.len (q : ArrayQueue α) : Nat := q.count

/-- Modelled from the spec: `ArrayQueue::new` over a byte buffer yields an
empty queue whose capacity is the number of elements that fit in the buffer;
the capacity is passed here directly. -/
def ArrayQueue.new (α : Type) [Inhabited α] (cap : Nat) : ArrayQueue α :=
  { buf := List.replicate cap default, readPos := 0, writePos := 0, count := 0 }

/-- Modelled from the spec: `push(msg) -> Result` fails (overflow) when full,
otherwise stores the element at the write position, advances the write
position modulo the capacity and increments the length counter. -/
def ArrayQueue.push (q : ArrayQueue α) (a : α) : ArrayQueue α × QueueResult :=
  if q.count = q.buf.length then
    (q, QueueResult.overflow)
  else
    ({ buf := q.buf.set q.writePos a,
       readPos := q.readPos,
       writePos := (q.writePos + 1) % q.buf.length,
       count := q.count + 1 }, QueueResult.ok)

/-- Modelled from the spec: `pop()` removes the oldest entry or signals empty
(the `Bool` component tells whether an element was removed). -/
def ArrayQueue.pop (q : ArrayQueue α) : ArrayQueue α × Bool :=
  if q.count = 0 then
    (q, false)
  else
    ({ q with readPos := (q.readPos + 1) % q.buf.length, count := q.count - 1 },
     true)

/-- Modelled from the spec: `front()` yields the oldest entry, or no value
when the queue is empty. -/
def ArrayQueue.front [Inhabited α] (q : ArrayQueue α) : Option α :=
  if q.count = 0 then none else some (q.buf.getD q.readPos default)

/-- One abstract operation on a bounded queue: a push of a value or a pop. -/
inductive QOp (α : Type) where
  | push (a : α)
  | pop
deriving DecidableEq

/-- Apply one operation to a queue (the state after the call, whether or not
the call succeeded). -/
def ArrayQueue.applyOp (q : ArrayQueue α) : QOp α → ArrayQueue α
  | QOp.push a => (q.push a).1
  | QOp.pop => (q.pop).1

/-- Apply a sequence of push/pop operations from left to right. -/
def ArrayQueue.applyOps (q : ArrayQueue α) (ops : List (QOp α)) : ArrayQueue α :=
  ops.foldl ArrayQueue.applyOp q

/-- Pop `n` times in a row. -/
def ArrayQueue.popN : Nat → ArrayQueue α → ArrayQueue α
  | 0, q => q
  | n + 1, q => ArrayQueue.popN n (q.pop).1

/-- From `main.rs`: `MAIN_QUEUE_BUF_SIZE = size_of::<Message>() * 32`, as a
function of the byte size of `Message`. -/
def MAIN_QUEUE_BUF_SIZE (messageSize : Nat) : Nat := messageSize * 32

/-- From `main.rs`: `MAIN_QUEUE` is an `ArrayQueue<Message>` built over
`MAIN_QUEUE_BUF`, so its capacity is the buffer's byte size divided by the
byte size of one `Message`. -/
def MAIN_QUEUE (messageSize : Nat) : ArrayQueue Message :=
  ArrayQueue.new Message (MAIN_QUEUE_BUF_SIZE messageSize / messageSize)

theorem ArrayQueue.push_capacity (q : ArrayQueue α) (a : α) :
    (q.push a).1.capacity = q.capacity := by
  unfold ArrayQueue.push ArrayQueue.capacity
  split <;> simp

theorem ArrayQueue.pop_capacity (q : ArrayQueue α) :
    (q.pop).1.capacity = q.capacity := by
  unfold ArrayQueue.pop ArrayQueue.capacity
  split <;> simp

theorem ArrayQueue.applyOp_capacity (q : ArrayQueue α) (op : QOp α) :
    (q.applyOp op).capacity = q.capacity := by
  cases op with
  | push a => exact q.push_capacity a
  | pop => exact q.pop_capacity

theorem ArrayQueue.push_len_le (q : ArrayQueue α) (a : α)
    (h : q.len ≤ q.capacity) : (q.push a).1.len ≤ (q.push a).1.capacity := by
  unfold ArrayQueue.push
  unfold ArrayQueue.len ArrayQueue.capacity at *
  split
  next hfull => simpa using h
  next hfull =>
    have hlt := Nat.lt_of_le_of_ne h hfull
    simpa using hlt

theorem ArrayQueue.pop_len_le (q : ArrayQueue α)
    (h : q.len ≤ q.capacity) : (q.pop).1.len ≤ (q.pop).1.capacity := by
  unfold ArrayQueue.pop
  unfold ArrayQueue.len ArrayQueue.capacity at *
  split
  next hempty => simpa using h
  next hempty => simp only; omega

theorem ArrayQueue.applyOps_len_le (q : ArrayQueue α) (ops : List (QOp α))
    (h : q.len ≤ q.capacity) :
    (q.applyOps ops).len ≤ (q.applyOps ops).capacity := by
  induction ops generalizing q with
  | nil => simpa [ArrayQueue.applyOps] using h
  | cons op rest ih =>
    have hstep : (q.applyOp op).len ≤ (q.applyOp op).capacity := by
      cases op with
      | push a => exact q.push_len_le a h
      | pop => exact q.pop_len_le h
    simpa [ArrayQueue.applyOps, List.foldl_cons] using
      ih (q.applyOp op) hstep

theorem ArrayQueue.applyOps_capacity (q : ArrayQueue α) (ops : List (QOp α)) :
    (q.applyOps ops).capacity = q.capacity := by
  induction ops generalizing q with
  | nil => rfl
  | cons op rest ih =>
    have := ih (q.applyOp op)
    simpa [ArrayQueue.applyOps, List.foldl_cons, q.applyOp_capacity op]
      using this

theorem ArrayQueue.new_len (α : Type) [Inhabited α] (cap : Nat) :
    (ArrayQueue.new α cap).len = 0 := rfl

theorem ArrayQueue.new_capacity (α : Type) [Inhabited α] (cap : Nat) :
    (ArrayQueue.new α cap).capacity = cap := by
  simp [ArrayQueue.new, ArrayQueue.capacity]

theorem ArrayQueue.push_full {q : ArrayQueue α} (a : α)
    (h : q.count = q.buf.length) : q.push a = (q, QueueResult.overflow) := by
  unfold ArrayQueue.push
  simp [h]

theorem ArrayQueue.pop_empty {q : ArrayQueue α}
    (h : q.count = 0) : q.pop = (q, false) := by
  unfold ArrayQueue.pop
  simp [h]

theorem ArrayQueue.popN_count {α : Type} :
    ∀ (n : Nat) (q : ArrayQueue α), q.count = n →
      (ArrayQueue.popN n q).count = 0 := by
  intro n
  induction n with
  | zero => intro q h; simpa [ArrayQueue.popN] using h
  | succ m ih =>
    intro q h
    have hne : ¬q.count = 0 := by omega
    have hcount : (q.pop).1.count = m := by
      unfold ArrayQueue.pop
      simp [hne]
      omega
    simpa [ArrayQueue.popN] using ih (q.pop).1 hcount

/-- C2: for every sequence of push and pop operations on an `ArrayQueue` of
capacity `C` starting from the empty queue, the invariant `0 ≤ len() ≤ C`
holds after every operation; in particular `len()` never exceeds `C`. -/
theorem claim_C2_queue_length_invariant (α : Type) [Inhabited α] (C : Nat)
    (ops : List (QOp α)) :
    0 ≤ ((ArrayQueue.new α C).applyOps ops).len ∧
      ((ArrayQueue.new α C).applyOps ops).len ≤ C := by
  refine ⟨Nat.zero_le _, ?_⟩
  have h0 : (ArrayQueue.new α C).len ≤ (ArrayQueue.new α C).capacity := by
    simp [ArrayQueue.new_len, ArrayQueue.new_capacity]
  have h := ArrayQueue.applyOps_len_le (ArrayQueue.new α C) ops h0
  have hc := ArrayQueue.applyOps_capacity (ArrayQueue.new α C) ops
  rw [hc, ArrayQueue.new_capacity] at h
  exact h

/-- C3: a push onto a full queue returns an overflow error and leaves the
queue completely unchanged; a pop from an empty queue yields no value and
leaves the queue unchanged; popping all `len()` items leaves `len() = 0`,
and a further pop again yields no value. -/
theorem claim_C3_full_push_empty_pop (α : Type) [Inhabited α]
    (q : ArrayQueue α) (a : α) :
    (q.len = q.capacity → q.push a = (q, QueueResult.overflow)) ∧
    (q.len = 0 → q.pop = (q, false) ∧ q.front = none) ∧
    (ArrayQueue.popN q.len q).len = 0 ∧
    (ArrayQueue.popN q.len q).pop = (ArrayQueue.popN q.len q, false) := by
  have hpopn : (ArrayQueue.popN q.len q).count = 0 :=
    ArrayQueue.popN_count q.len q rfl
  refine ⟨?_, ?_, hpopn, ArrayQueue.pop_empty hpopn⟩
  · intro hfull
    exact ArrayQueue.push_full a hfull
  · intro hempty
    have hc : q.count = 0 := hempty
    exact ⟨ArrayQueue.pop_empty hc, by simp [ArrayQueue.front, hc]⟩

/-- Witness for C3 at the concrete capacity-0 queue, where both the
full-queue and the empty-queue hypotheses hold at once. -/
theorem claim_C3_full_push_empty_pop_witness :
    ((ArrayQueue.new Message 0).push (Message.new MessageType.InteruptXHCI) =
      (ArrayQueue.new Message 0, QueueResult.overflow)) ∧
    ((ArrayQueue.new Message 0).pop = (ArrayQueue.new Message 0, false) ∧
      (ArrayQueue.new Message 0).front = none) := by
  have h := claim_C3_full_push_empty_pop Message (ArrayQueue.new Message 0)
    (Message.new MessageType.InteruptXHCI)
  exact ⟨h.1 (by decide), h.2.1 (by decide)⟩

/-- C10: the main dispatch queue's capacity is exactly 32 messages: for any
positive byte size of `Message`, `MAIN_QUEUE_BUF_SIZE / size` is 32, every
state reachable by pushes and pops satisfies `len() ≤ 32`, and a push when 32
messages are enqueued fails with an overflow error. -/
theorem claim_C10_main_queue_capacity (messageSize : Nat)
    (hm : 0 < messageSize) (ops : List (QOp Message)) (a : Message) :
    (MAIN_QUEUE messageSize).capacity = 32 ∧
    ((MAIN_QUEUE messageSize).applyOps ops).len ≤ 32 ∧
    (((MAIN_QUEUE messageSize).applyOps ops).len = 32 →
      ((MAIN_QUEUE messageSize).applyOps ops).push a =
        ((MAIN_QUEUE messageSize).applyOps ops, QueueResult.overflow)) := by
  have hcap32 : MAIN_QUEUE_BUF_SIZE messageSize / messageSize = 32 := by
    unfold MAIN_QUEUE_BUF_SIZE
    rw [Nat.mul_comm]
    exact Nat.mul_div_cancel 32 hm
  have hcap : (MAIN_QUEUE messageSize).capacity = 32 := by
    unfold MAIN_QUEUE
    rw [ArrayQueue.new_capacity, hcap32]
  have hreach : ((MAIN_QUEUE messageSize).applyOps ops).capacity = 32 := by
    rw [ArrayQueue.applyOps_capacity, hcap]
  have hlen : ((MAIN_QUEUE messageSize).applyOps ops).len ≤ 32 := by
    have h0 : (MAIN_QUEUE messageSize).len ≤ (MAIN_QUEUE messageSize).capacity := by
      unfold MAIN_QUEUE
      simp [ArrayQueue.new_len]
    have h := ArrayQueue.applyOps_len_le (MAIN_QUEUE messageSize) ops h0
    rwa [hreach] at h
  refine ⟨hcap, hlen, ?_⟩
  intro h32
  have : ((MAIN_QUEUE messageSize).applyOps ops).count =
      ((MAIN_QUEUE messageSize).applyOps ops).buf.length := by
    have := hreach
    unfold ArrayQueue.capacity at this
    unfold ArrayQueue.len at h32
    omega
  exact ArrayQueue.push_full a this

/-- Witness for C10 at `messageSize = 1` and the empty operation sequence. -/
theorem claim_C10_main_queue_capacity_witness :
    (MAIN_QUEUE 1).capacity = 32 ∧
    ((MAIN_QUEUE 1).applyOps []).len ≤ 32 ∧
    (((MAIN_QUEUE 1).applyOps []).len = 32 →
      ((MAIN_QUEUE 1).applyOps []).push (Message.new MessageType.InteruptXHCI) =
        ((MAIN_QUEUE 1).applyOps [], QueueResult.overflow)) :=
  claim_C10_main_queue_capacity 1 (by decide) []
    (Message.new MessageType.InteruptXHCI)

/-- One observable action of the xHCI interrupt handler. -/
inductive HandlerStep where
  | push (m : Message) (result : QueueResult)
  | notifyEndOfInterrupt
deriving DecidableEq

/-- From `main.rs` (`int_handler_xhci`): push one
`Message::new(MessageType::InteruptXHCI)` onto the main queue, ignoring the
push result, then call `notify_end_of_interrupt()`.  The function returns the
queue after the call together with the list of actions performed, in order. -/
def int_handler_xhci (q : ArrayQueue Message) :
    ArrayQueue Message × List HandlerStep :=
  let msg := Message.new MessageType.InteruptXHCI
  let p := q.push msg
  (p.1, [HandlerStep.push msg p.2, HandlerStep.notifyEndOfInterrupt])

/-- C4: on every invocation the xHCI interrupt handler performs exactly two
actions, in order: one push of a `Message` whose type is `InteruptXHCI`
(whose result it ignores) and then one `notify_end_of_interrupt`; when the
queue is full the push drops the newest message and the queue is left
completely unchanged, and otherwise the queue's length grows by one. -/
theorem claim_C4_interrupt_handler (q : ArrayQueue Message) :
    (∃ res, (int_handler_xhci q).2 =
      [HandlerStep.push (Message.new MessageType.InteruptXHCI) res,
       HandlerStep.notifyEndOfInterrupt]) ∧
    (q.len = q.capacity → (int_handler_xhci q).1 = q) ∧
    (q.len ≠ q.capacity → (int_handler_xhci q).1.len = q.len + 1) := by
  refine ⟨⟨(q.push (Message.new MessageType.InteruptXHCI)).2, rfl⟩, ?_, ?_⟩
  · intro hfull
    have hc : q.count = q.buf.length := hfull
    simp [int_handler_xhci, ArrayQueue.push_full _ hc]
  · intro hne
    have hc : ¬q.count = q.buf.length := hne
    simp [int_handler_xhci, ArrayQueue.push, hc, ArrayQueue.len]

/-- Modelled from the spec: the primary event ring of the xHC, a
hardware-producer/software-consumer buffer.  Each pending entry is modelled
by a flag telling whether processing it succeeds (`true`) or yields an error
classification (`false`). -/
structure EventRing where
  pending : List Bool
deriving DecidableEq

/-- Modelled from the spec: `has_front()` is the liveness check telling
whether an unprocessed entry is in front of the read cursor. -/
def EventRing.has_front (r : EventRing) : Bool := !r.pending.isEmpty

/-- Modelled from the spec: the xHC `Controller` from `usb.rs` (not among the
sources); only the primary event ring is relevant to the dispatch loop. -/
structure Controller where
  ring : EventRing
deriving DecidableEq

/-- Accessor `primary_event_ring()` of the controller. -/
def Controller.primary_event_ring (c : Controller) : EventRing := c.ring

/-- Modelled from the spec: `process_event()` pops one entry from the primary
event ring and dispatches it, returning an error classification (`true` in
the second component) on a malformed event; called with no pending entry it
does not advance the cursor or mutate state. -/
def Controller.process_event (c : Controller) : Controller × Bool :=
  match c.ring.pending with
  | [] => (c, false)
  | e :: rest => (⟨⟨rest⟩⟩, !e)

/-- One observable action of a dispatch-loop iteration, in program order. -/
inductive LoopEvent where
  | cli
  | checkLen (n : Nat)
  | sti
  | hlt
  | pop (m : Message)
  | processEvent (err : Bool)
deriving DecidableEq

/-- State visible to the dispatch loop: the main queue, the xHC and whether
interrupts are currently enabled. -/
structure LoopState where
  main_queue : ArrayQueue Message
  xhc : Controller
  intEnabled : Bool
deriving DecidableEq

theorem Controller.process_event_length {c : Controller}
    (h : c.ring.has_front = true) :
    (c.process_event).1.ring.pending.length < c.ring.pending.length := by
  unfold Controller.process_event
  cases hp : c.ring.pending with
  | nil => simp [EventRing.has_front, hp] at h
  | cons e rest => simp [hp]

/-- From `main.rs` (dispatch loop body, `InteruptXHCI` arm): drain the
primary event ring by calling `process_event` while `has_front()` holds,
recording one `processEvent` action per call with its error flag. -/
def Controller.drain_events (c : Controller) : Controller × List LoopEvent :=
  if h : c.primary_event_ring.has_front = true then
    let p := c.process_event
    let rest := p.1.drain_events
    (rest.1, LoopEvent.processEvent p.2 :: rest.2)
  else
    (c, [])
termination_by c.ring.pending.length
decreasing_by exact Controller.process_event_length h

theorem Controller.drain_events_spec :
    ∀ (n : Nat) (c : Controller), c.ring.pending.length = n →
      (c.drain_events).1.ring.pending = [] ∧
      (c.drain_events).2.length = c.ring.pending.length ∧
      ∀ e ∈ (c.drain_events).2, ∃ b, e = LoopEvent.processEvent b := by
  intro n
  induction n using Nat.strong_induction_on with
  | _ n ih =>
    intro c hc
    rw [Controller.drain_events]
    split
    next hfront =>
      cases hp : c.ring.pending with
      | nil => simp [Controller.primary_event_ring, EventRing.has_front, hp] at hfront
      | cons e rest =>
        have hproc : c.process_event = (⟨⟨rest⟩⟩, !e) := by
          unfold Controller.process_event
          simp [hp]
        have hlen : (⟨⟨rest⟩⟩ : Controller).ring.pending.length < n := by
          simp only [hp, List.length_cons] at hc
          simp
          omega
        have hrec := ih _ hlen (⟨⟨rest⟩⟩ : Controller) rfl
        refine ⟨?_, ?_, ?_⟩
        · simpa [hproc] using hrec.1
        · simp [hproc, hp, hrec.2.1]
        · intro x hx
          simp only [hproc] at hx
          simp only [List.mem_cons] at hx
          rcases hx with hx | hx
          · exact ⟨!e, hx⟩
          · exact hrec.2.2 x hx
    next hfront =>
      have hp : c.ring.pending = [] := by
        simpa [Controller.primary_event_ring, EventRing.has_front] using hfront
      simp [hp]

/-- From `main.rs` (`kernel_entry`, the `loop` at the end): one iteration of
the idle/dispatch loop.  `cli` is executed, then the queue length is checked;
if the queue is empty, `sti; hlt` is executed and no message is consumed;
otherwise the front message is read (`unwrap`, modelled by the `none` result
on an impossible miss), one message is popped, `sti` is executed and the
message is dispatched by type, draining the event ring for `InteruptXHCI`. -/
def loop_iteration (s : LoopState) : Option (LoopState × List LoopEvent) :=
  let q := s.main_queue
  if q.len = 0 then
    some ({ s with intEnabled := true },
          [LoopEvent.cli, LoopEvent.checkLen q.len, LoopEvent.sti, LoopEvent.hlt])
  else
    match q.front with
    | none => none
    | some msg =>
      let q2 := (q.pop).1
      match msg.type with
      | MessageType.InteruptXHCI =>
        let d := s.xhc.drain_events
        some ({ main_queue := q2, xhc := d.1, intEnabled := true },
              LoopEvent.cli :: LoopEvent.checkLen q.len :: LoopEvent.pop msg ::
                LoopEvent.sti :: d.2)

/-- Run `n` iterations of the dispatch loop; `none` models a panic inside an
iteration (the loop itself has no exit of its own). -/
def loop_run : Nat → LoopState → Option LoopState
  | 0, s => some s
  | n + 1, s =>
    match loop_iteration s with
    | none => none
    | some (s2, _) => loop_run n s2

/-- Tells whether a loop event is a `process_event` call. -/
def LoopEvent.isProcessEvent : LoopEvent → Bool
  | LoopEvent.processEvent _ => true
  | _ => false

theorem loop_iteration_isSome (s : LoopState) :
    (loop_iteration s).isSome = true := by
  unfold loop_iteration
  by_cases hz : s.main_queue.len = 0
  · simp [hz]
  · have hfront : s.main_queue.front =
        some (s.main_queue.buf.getD s.main_queue.readPos default) := by
      unfold ArrayQueue.front
      have : ¬s.main_queue.count = 0 := hz
      simp [this]
    simp [hz, hfront]

theorem loop_run_isSome (n : Nat) (s : LoopState) :
    (loop_run n s).isSome = true := by
  induction n generalizing s with
  | zero => simp [loop_run]
  | succ m ih =>
    unfold loop_run
    cases hit : loop_iteration s with
    | none => simpa [hit] using loop_iteration_isSome s
    | some p => simpa using ih p.1

/-- C5: in every iteration of the dispatch loop, interrupts are disabled
before the queue-length check; if the queue is empty, interrupts are
re-enabled, the processor halts, and no message is consumed; if the queue is
non-empty, exactly one message (the front) is popped, interrupts are
re-enabled, and the message is dispatched by type, draining all pending
event-ring entries via `process_event` while `has_front()` holds; and the
loop never terminates: every number of further iterations completes. -/
theorem claim_C5_dispatch_loop (s : LoopState) :
    (∃ s2 evts, loop_iteration s = some (s2, evts) ∧
      evts.take 2 = [LoopEvent.cli, LoopEvent.checkLen s.main_queue.len] ∧
      s2.intEnabled = true ∧
      (s.main_queue.len = 0 →
        evts = [LoopEvent.cli, LoopEvent.checkLen 0, LoopEvent.sti,
                LoopEvent.hlt] ∧
        s2.main_queue = s.main_queue) ∧
      (s.main_queue.len ≠ 0 → ∃ m,
        s.main_queue.front = some m ∧
        evts = LoopEvent.cli :: LoopEvent.checkLen s.main_queue.len ::
               LoopEvent.pop m :: LoopEvent.sti :: (s.xhc.drain_events).2 ∧
        s2.main_queue.len = s.main_queue.len - 1 ∧
        s2.xhc.primary_event_ring.has_front = false ∧
        evts.countP LoopEvent.isProcessEvent = s.xhc.ring.pending.length)) ∧
    (∀ n, (loop_run n s).isSome = true) := by
  refine ⟨?_, fun n => loop_run_isSome n s⟩
  by_cases hz : s.main_queue.len = 0
  · refine ⟨{ s with intEnabled := true },
      [LoopEvent.cli, LoopEvent.checkLen s.main_queue.len, LoopEvent.sti,
       LoopEvent.hlt], ?_, ?_, rfl, ?_, ?_⟩
    · unfold loop_iteration
      simp [hz]
    · rfl
    · intro _
      exact ⟨by rw [hz], rfl⟩
    · intro hne
      exact absurd hz hne
  · have hdrain := Controller.drain_events_spec s.xhc.ring.pending.length s.xhc rfl
    set m := s.main_queue.buf.getD s.main_queue.readPos default with hm
    have hfront : s.main_queue.front = some m := by
      unfold ArrayQueue.front
      have : ¬s.main_queue.count = 0 := hz
      simp [this, hm]
    have hit : loop_iteration s = some
        ({ main_queue := (s.main_queue.pop).1, xhc := (s.xhc.drain_events).1,
           intEnabled := true },
         LoopEvent.cli :: LoopEvent.checkLen s.main_queue.len ::
           LoopEvent.pop m :: LoopEvent.sti :: (s.xhc.drain_events).2) := by
      unfold loop_iteration
      simp [hz, hfront]
    refine ⟨_, _, hit, rfl, rfl, fun h0 => absurd h0 hz, fun _ => ⟨m, hfront,
      rfl, ?_, ?_, ?_⟩⟩
    · have : ¬s.main_queue.count = 0 := hz
      unfold ArrayQueue.pop
      simp [this, ArrayQueue.len]
    · have hnil := hdrain.1
      simp [Controller.primary_event_ring, EventRing.has_front, hnil]
    · have hall := hdrain.2.2
      have hlen := hdrain.2.1
      have hcount : ((s.xhc.drain_events).2).countP LoopEvent.isProcessEvent =
          ((s.xhc.drain_events).2).length := by
        rw [List.countP_eq_length]
        intro e he
        rcases hall e he with ⟨b, rfl⟩
        rfl
      simp only [List.countP_cons, LoopEvent.isProcessEvent]
      simp [hcount, hlen]

/-- Modelled from the spec: the PCI class code triple from `pci.rs` (not
among the sources). -/
structure ClassCode where
  base : Nat
  sub : Nat
  interface : Nat
deriving DecidableEq

/-- Modelled from the spec: `ClassCode::match(base, sub, interface)` is an
exact, wildcard-free match of all three fields. -/
def ClassCode.r_match (c : ClassCode) (base sub interface : Nat) : Bool :=
  c.base == base && c.sub == sub && c.interface == interface

/-- Modelled from the spec: a PCI device record from `pci.rs` (not among the
sources): bus/device/function address, vendor ID, class code and header
type, immutable once read during the scan. -/
structure Device where
  bus : Nat
  device : Nat
  function : Nat
  vendor_id : Nat
  class_code : ClassCode
  header_type : Nat
deriving DecidableEq

/-- Modelled from the spec: `Device::read_vendor_id` reads the vendor ID
from configuration space; the record's field holds that value. -/
def Device.read_vendor_id (d : Device) : Nat := d.vendor_id

/-- From `main.rs` (`kernel_entry`, the loop captioned "Intel 製を優先して
xHC を探す"): walk the device table in order, remember every device whose
class code matches (0x0C, 0x03, 0x30), and stop as soon as such a device
also has vendor ID 0x8086.  The accumulator is the match remembered so far. -/
def findXhcLoop : List Device → Option Device → Option Device
  | [], acc => acc
  | d :: rest, acc =>
    if d.class_code.r_match 0x0c 0x03 0x30 then
      if d.read_vendor_id == 0x8086 then some d
      else findXhcLoop rest (some d)
    else findXhcLoop rest acc

/-- The xHC selection performed by `kernel_entry` over the scanned device
table (starting from `xhc_dev = None`). -/
def findXhc (devices : List Device) : Option Device := findXhcLoop devices none

/-- Tells whether a device's class code matches the xHCI triple
(0x0C, 0x03, 0x30). -/
def isXhci (d : Device) : Bool := d.class_code.r_match 0x0c 0x03 0x30

/-- Tells whether a device is an Intel xHCI controller: xHCI class code and
vendor ID 0x8086. -/
def isIntelXhci (d : Device) : Bool := isXhci d && d.read_vendor_id == 0x8086

theorem getLast?_cons_orElse {α : Type} (d : α) (L : List α)
    (f : Unit → Option α) :
    ((d :: L).getLast?).orElse f = (L.getLast?).orElse fun _ => some d := by
  cases L with
  | nil => simp [List.getLast?, Option.orElse]
  | cons a l =>
    rw [List.getLast?_cons_cons]
    rcases Option.isSome_iff_exists.mp
      (List.getLast?_isSome.mpr (by simp : (a :: l) ≠ [])) with ⟨x, hx⟩
    rw [hx]
    rfl

theorem findXhcLoop_eq (devices : List Device) :
    ∀ acc, findXhcLoop devices acc =
      ((devices.find? isIntelXhci).orElse fun _ =>
        ((devices.filter isXhci).getLast?).orElse fun _ => acc) := by
  induction devices with
  | nil => intro acc; simp [findXhcLoop]
  | cons d rest ih =>
    intro acc
    by_cases hx : isXhci d
    · by_cases hv : d.read_vendor_id == 0x8086
      · have : isIntelXhci d = true := by simp [isIntelXhci, hx, hv]
        simp [findXhcLoop, isXhci] at hx
        simp [findXhcLoop, hx, hv, List.find?_cons, this]
      · have hni : isIntelXhci d = false := by simp [isIntelXhci, hv]
        have hx' := hx
        simp [isXhci] at hx'
        rw [show findXhcLoop (d :: rest) acc = findXhcLoop rest (some d) by
          simp [findXhcLoop, hx', hv]]
        rw [ih (some d)]
        have hfindc : (d :: rest).find? isIntelXhci = rest.find? isIntelXhci := by
          simp [List.find?_cons, hni]
        have hfiltc : (d :: rest).filter isXhci = d :: rest.filter isXhci := by
          simp [List.filter_cons, hx]
        rw [hfindc, hfiltc, getLast?_cons_orElse]
    · have hni : isIntelXhci d = false := by simp [isIntelXhci, hx]
      have hx' := hx
      simp [isXhci] at hx'
      rw [show findXhcLoop (d :: rest) acc = findXhcLoop rest acc by
        simp [findXhcLoop, hx']]
      rw [ih acc]
      simp [List.find?_cons, hni, List.filter_cons, hx]

/-- A non-Intel xHCI controller (vendor 0x1234), enumerated first. -/
def dev_xhci_first : Device :=
  { bus := 0, device := 1, function := 0, vendor_id := 0x1234,
    class_code := { base := 0x0c, sub := 0x03, interface := 0x30 },
    header_type := 0 }

/-- A non-Intel xHCI controller (vendor 0x1B36), enumerated second. -/
def dev_xhci_second : Device :=
  { bus := 0, device := 2, function := 0, vendor_id := 0x1b36,
    class_code := { base := 0x0c, sub := 0x03, interface := 0x30 },
    header_type := 0 }

/-- C1 counterexample: with two matching devices and no Intel match, the
selection loop picks the second (last) matching device, not the first, so
the claim's "otherwise picks the first matching device in enumeration
order" is false on this table. -/
theorem claim_C1_xhc_selection_counterexample :
    isXhci dev_xhci_first = true ∧ isXhci dev_xhci_second = true ∧
    dev_xhci_first.read_vendor_id ≠ 0x8086 ∧
    dev_xhci_second.read_vendor_id ≠ 0x8086 ∧
    dev_xhci_second ≠ dev_xhci_first ∧
    findXhc [dev_xhci_first, dev_xhci_second] = some dev_xhci_second := by
  decide

/-- C1 (amended): the xHC selection picks the first device that matches
(0x0C, 0x03, 0x30) and has vendor ID 0x8086 whenever such a device exists,
and otherwise picks the last device in enumeration order whose class code
matches (and no device when there is no match at all). -/
theorem claim_C1_xhc_selection (devices : List Device) :
    findXhc devices =
      (devices.find? isIntelXhci).orElse fun _ =>
        (devices.filter isXhci).getLast? := by
  unfold findXhc
  rw [findXhcLoop_eq devices none]
  cases hfind : devices.find? isIntelXhci with
  | some d => rfl
  | none =>
    cases hlast : (devices.filter isXhci).getLast? with
    | some d => rfl
    | none => rfl

/-- Modelled from the spec: `InterruptVector::XHCI` from `interrupt.rs` (not
among the sources); the spec fixes one vector for xHCI MSI delivery, 0x40. -/
def XHCI_VECTOR : Nat := 0x40

/-- One observable step of the boot sequence in `kernel_entry`, from the
queue initialization onward (the earlier framebuffer/console drawing has no
bearing on the claims). -/
inductive BootStep where
  | initQueue
  | scanBus
  | setIdtEntry (vector : Nat)
  | loadIdt
  | configureMsi (vector : Nat)
  | readBar
  | newController
  | readConfReg (offset : Nat) (value : Nat)
  | writeConfReg (offset : Nat) (value : Nat)
  | initXhc
  | runXhc
  | setDefaultObserver
  | checkPort (i : Nat) (connected : Bool)
  | configurePort (i : Nat) (ok : Bool)
  | logPortError (i : Nat)
deriving DecidableEq

/-- Environment the boot sequence runs against: the device table produced by
`scan_all_bus`, the PCI configuration-space read function, and the xHC's
port count, per-port connection status and per-port outcome of
`configure_port`. -/
structure BootEnv where
  devices : List Device
  conf : Device → Nat → Nat
  maxPorts : Nat
  isConnected : Nat → Bool
  configurePortOk : Nat → Bool

/-- From `main.rs` (`switch_ehci2xhci`, first loop): scan the device table
for an Intel EHCI controller, a device whose class code matches
(0x0C, 0x03, 0x20) with vendor ID 0x8086.  The source loop breaks at the
first hit, which is exactly `List.any`. -/
def intel_ehc_exist (devices : List Device) : Bool :=
  devices.any fun d =>
    d.class_code.r_match 0x0c 0x03 0x20 && d.read_vendor_id == 0x8086

/-- From `main.rs` (`switch_ehci2xhci`): if no Intel EHCI controller is
present, return without touching configuration space; otherwise read
register 0xDC and write its value to 0xD8, then read 0xD4 and write its
value to 0xD0, on the xHC device. -/
def switch_ehci2xhci (env : BootEnv) (xhc_dev : Device) : List BootStep :=
  if !intel_ehc_exist env.devices then []
  else
    let superspeed_ports := env.conf xhc_dev 0xdc
    let ehci2xhci_ports := env.conf xhc_dev 0xd4
    [BootStep.readConfReg 0xdc superspeed_ports,
     BootStep.writeConfReg 0xd8 superspeed_ports,
     BootStep.readConfReg 0xd4 ehci2xhci_ports,
     BootStep.writeConfReg 0xd0 ehci2xhci_ports]

/-- From `main.rs` (`kernel_entry`, the port loop): for each port `i` in
`1..=max_ports()`, log `is_connected()`, and when it is connected call
`configure_port`; on error log it and continue with the next port. -/
def port_enum (env : BootEnv) : List BootStep :=
  (List.range' 1 env.maxPorts).flatMap fun i =>
    BootStep.checkPort i (env.isConnected i) ::
      (if env.isConnected i then
        BootStep.configurePort i (env.configurePortOk i) ::
          (if env.configurePortOk i then [] else [BootStep.logPortError i])
      else [])

/-- Outcome of the boot sequence: either a panic (with the steps performed
before it) or entry into the never-ending dispatch loop. -/
inductive BootOutcome where
  | panicked (trace : List BootStep)
  | loopEntered (trace : List BootStep)
deriving DecidableEq

/-- From `main.rs` (`kernel_entry`, lines after the console setup): build
the main queue, scan the PCI bus, select the xHC (`unwrap` panics when none
was found), install and load the IDT entry for the xHCI vector, configure
MSI on the chosen device, read its BAR, build the controller, perform the
Intel EHCI handoff when the xHC vendor is Intel, initialize and start the
controller, register the mouse observer, and enumerate the ports. -/
def kernel_entry (env : BootEnv) : BootOutcome :=
  match findXhc env.devices with
  | none => BootOutcome.panicked [BootStep.initQueue, BootStep.scanBus]
  | some xhc_dev =>
    BootOutcome.loopEntered
      ([BootStep.initQueue, BootStep.scanBus,
        BootStep.setIdtEntry XHCI_VECTOR, BootStep.loadIdt,
        BootStep.configureMsi XHCI_VECTOR, BootStep.readBar,
        BootStep.newController]
       ++ (if xhc_dev.read_vendor_id == 0x8086 then
            switch_ehci2xhci env xhc_dev
          else [])
       ++ [BootStep.initXhc, BootStep.runXhc, BootStep.setDefaultObserver]
       ++ port_enum env)

/-- From `main.rs` (`panic` handler and `halt`): the panic handler prints
the panic info through the console, then enters `halt()`, a `hlt` loop that
never exits. -/
inductive PanicPhase where
  | printing
  | halted
deriving DecidableEq

/-- One step of the panic handler: printing is followed by the halt loop,
and the halt loop only ever halts again. -/
def panic_step : PanicPhase → PanicPhase
  | PanicPhase.printing => PanicPhase.halted
  | PanicPhase.halted => PanicPhase.halted

/-- Tells whether a boot step is the `set_idt_entry` call. -/
def BootStep.isSetIdtEntry : BootStep → Bool
  | BootStep.setIdtEntry _ => true
  | _ => false

/-- Tells whether a boot step is the `load_idt` call. -/
def BootStep.isLoadIdt : BootStep → Bool
  | BootStep.loadIdt => true
  | _ => false

/-- Tells whether a boot step is the `configure_msi_fixed_destination`
call. -/
def BootStep.isConfigureMsi : BootStep → Bool
  | BootStep.configureMsi _ => true
  | _ => false

/-- Tells whether a boot step is the `xhc.initialize()` call. -/
def BootStep.isInitXhc : BootStep → Bool
  | BootStep.initXhc => true
  | _ => false

/-- Tells whether a boot step is the `xhc.run()` call. -/
def BootStep.isRunXhc : BootStep → Bool
  | BootStep.runXhc => true
  | _ => false

/-- Tells whether a boot step is a configuration-space register access. -/
def BootStep.isConfAccess : BootStep → Bool
  | BootStep.readConfReg _ _ => true
  | BootStep.writeConfReg _ _ => true
  | _ => false

/-- Tells whether a boot step belongs to the port-enumeration loop. -/
def BootStep.isPortStep : BootStep → Bool
  | BootStep.checkPort _ _ => true
  | BootStep.configurePort _ _ => true
  | BootStep.logPortError _ => true
  | _ => false

theorem countP_eq_zero_of_disjoint {α : Type} {p q : α → Bool} (l : List α)
    (hall : ∀ x ∈ l, q x = true) (hdisj : ∀ x, q x = true → p x = false) :
    l.countP p = 0 := by
  rw [List.countP_eq_zero]
  intro a ha
  simp [hdisj a (hall a ha)]

theorem switch_mem (env : BootEnv) (xhc : Device) :
    ∀ x ∈ switch_ehci2xhci env xhc, BootStep.isConfAccess x = true := by
  intro x hx
  unfold switch_ehci2xhci at hx
  split at hx
  · simp at hx
  · simp only [List.mem_cons, List.not_mem_nil, or_false] at hx
    rcases hx with rfl | rfl | rfl | rfl <;> rfl

theorem switch_if_mem (env : BootEnv) (xhc : Device) :
    ∀ x ∈ (if xhc.read_vendor_id == 0x8086 then switch_ehci2xhci env xhc
           else []), BootStep.isConfAccess x = true := by
  split
  · exact switch_mem env xhc
  · simp

theorem port_enum_mem (env : BootEnv) :
    ∀ x ∈ port_enum env, BootStep.isPortStep x = true := by
  intro x hx
  unfold port_enum at hx
  rw [List.mem_flatMap] at hx
  rcases hx with ⟨i, hi, hxin⟩
  simp only [List.mem_cons] at hxin
  rcases hxin with rfl | hxin
  · rfl
  · split at hxin
    · simp only [List.mem_cons] at hxin
      rcases hxin with rfl | hxin
      · rfl
      · split at hxin
        · simp at hxin
        · simp only [List.mem_cons, List.not_mem_nil, or_false] at hxin
          subst hxin
          rfl
    · simp at hxin

theorem kernel_entry_loopEntered {env : BootEnv} {t : List BootStep}
    (h : kernel_entry env = BootOutcome.loopEntered t) :
    ∃ xhc, findXhc env.devices = some xhc ∧
      t = [BootStep.initQueue, BootStep.scanBus,
           BootStep.setIdtEntry XHCI_VECTOR, BootStep.loadIdt,
           BootStep.configureMsi XHCI_VECTOR, BootStep.readBar,
           BootStep.newController]
          ++ (if xhc.read_vendor_id == 0x8086 then switch_ehci2xhci env xhc
              else [])
          ++ [BootStep.initXhc, BootStep.runXhc, BootStep.setDefaultObserver]
          ++ port_enum env := by
  unfold kernel_entry at h
  cases hfind : findXhc env.devices with
  | none => rw [hfind] at h; simp at h
  | some xhc =>
    rw [hfind] at h
    refine ⟨xhc, rfl, ?_⟩
    injection h with h2
    exact h2.symm

theorem isConfAccess_not_order_step (x : BootStep)
    (hx : BootStep.isConfAccess x = true) :
    BootStep.isSetIdtEntry x = false ∧ BootStep.isLoadIdt x = false ∧
    BootStep.isConfigureMsi x = false ∧ BootStep.isInitXhc x = false ∧
    BootStep.isRunXhc x = false := by
  cases x <;> simp_all [BootStep.isConfAccess, BootStep.isSetIdtEntry,
    BootStep.isLoadIdt, BootStep.isConfigureMsi, BootStep.isInitXhc,
    BootStep.isRunXhc]

theorem isPortStep_not_order_step (x : BootStep)
    (hx : BootStep.isPortStep x = true) :
    BootStep.isSetIdtEntry x = false ∧ BootStep.isLoadIdt x = false ∧
    BootStep.isConfigureMsi x = false ∧ BootStep.isInitXhc x = false ∧
    BootStep.isRunXhc x = false := by
  cases x <;> simp_all [BootStep.isPortStep, BootStep.isSetIdtEntry,
    BootStep.isLoadIdt, BootStep.isConfigureMsi, BootStep.isInitXhc,
    BootStep.isRunXhc]

/-- C6: the boot sequence performs, in this order: set the IDT entry for the
xHCI vector, load the IDT, configure the chosen device's MSI capability,
initialize the controller, and start it; each of these steps occurs exactly
once (nothing skipped), and they occur in that order (nothing reordered). -/
theorem claim_C6_boot_order (env : BootEnv) (t : List BootStep)
    (h : kernel_entry env = BootOutcome.loopEntered t) :
    (t.countP BootStep.isSetIdtEntry = 1 ∧ t.countP BootStep.isLoadIdt = 1 ∧
     t.countP BootStep.isConfigureMsi = 1 ∧ t.countP BootStep.isInitXhc = 1 ∧
     t.countP BootStep.isRunXhc = 1) ∧
    ∃ l1 l2 l3 l4 l5 l6,
      t = l1 ++ BootStep.setIdtEntry XHCI_VECTOR :: (l2 ++ BootStep.loadIdt ::
          (l3 ++ BootStep.configureMsi XHCI_VECTOR :: (l4 ++ BootStep.initXhc ::
          (l5 ++ BootStep.runXhc :: l6)))) := by
  rcases kernel_entry_loopEntered h with ⟨xhc, hfind, rfl⟩
  have hswmem := switch_if_mem env xhc
  have hportmem := port_enum_mem env
  constructor
  · refine ⟨?_, ?_, ?_, ?_, ?_⟩
    · rw [List.countP_append, List.countP_append, List.countP_append,
        countP_eq_zero_of_disjoint _ hswmem
          (fun x hx => (isConfAccess_not_order_step x hx).1),
        countP_eq_zero_of_disjoint _ hportmem
          (fun x hx => (isPortStep_not_order_step x hx).1)]
      decide
    · rw [List.countP_append, List.countP_append, List.countP_append,
        countP_eq_zero_of_disjoint _ hswmem
          (fun x hx => (isConfAccess_not_order_step x hx).2.1),
        countP_eq_zero_of_disjoint _ hportmem
          (fun x hx => (isPortStep_not_order_step x hx).2.1)]
      decide
    · rw [List.countP_append, List.countP_append, List.countP_append,
        countP_eq_zero_of_disjoint _ hswmem
          (fun x hx => (isConfAccess_not_order_step x hx).2.2.1),
        countP_eq_zero_of_disjoint _ hportmem
          (fun x hx => (isPortStep_not_order_step x hx).2.2.1)]
      decide
    · rw [List.countP_append, List.countP_append, List.countP_append,
        countP_eq_zero_of_disjoint _ hswmem
          (fun x hx => (isConfAccess_not_order_step x hx).2.2.2.1),
        countP_eq_zero_of_disjoint _ hportmem
          (fun x hx => (isPortStep_not_order_step x hx).2.2.2.1)]
      decide
    · rw [List.countP_append, List.countP_append, List.countP_append,
        countP_eq_zero_of_disjoint _ hswmem
          (fun x hx => (isConfAccess_not_order_step x hx).2.2.2.2),
        countP_eq_zero_of_disjoint _ hportmem
          (fun x hx => (isPortStep_not_order_step x hx).2.2.2.2)]
      decide
  · refine ⟨[BootStep.initQueue, BootStep.scanBus], [], [],
      [BootStep.readBar, BootStep.newController] ++
        (if xhc.read_vendor_id == 0x8086 then switch_ehci2xhci env xhc
         else []), [],
      [BootStep.setDefaultObserver] ++ port_enum env, ?_⟩
    simp only [List.append_assoc, List.cons_append, List.nil_append]

theorem isPortStep_not_conf (x : BootStep)
    (hx : BootStep.isPortStep x = true) :
    BootStep.isConfAccess x = false := by
  cases x <;> simp_all [BootStep.isPortStep, BootStep.isConfAccess]

/-- C7: the EHCI-to-xHCI handoff (read 0xDC, write its value to 0xD8, read
0xD4, write its value to 0xD0) is performed if and only if the discovered
xHC's vendor ID is 0x8086 and the device table contains an Intel EHCI
controller (class (0x0C, 0x03, 0x20), vendor 0x8086); when performed, all
four accesses happen before `xhc.initialize()`, and no configuration-space
access happens after it. -/
theorem claim_C7_ehci_handoff (env : BootEnv) (xhc : Device)
    (t : List BootStep) (hfind : findXhc env.devices = some xhc)
    (h : kernel_entry env = BootOutcome.loopEntered t) :
    ∃ pre post, t = pre ++ BootStep.initXhc :: post ∧
      post.countP BootStep.isConfAccess = 0 ∧
      ((xhc.read_vendor_id = 0x8086 ∧ intel_ehc_exist env.devices = true) →
        pre.countP BootStep.isConfAccess = 4 ∧
        [BootStep.readConfReg 0xdc (env.conf xhc 0xdc),
         BootStep.writeConfReg 0xd8 (env.conf xhc 0xdc),
         BootStep.readConfReg 0xd4 (env.conf xhc 0xd4),
         BootStep.writeConfReg 0xd0 (env.conf xhc 0xd4)] <:+ pre) ∧
      (¬(xhc.read_vendor_id = 0x8086 ∧ intel_ehc_exist env.devices = true) →
        t.countP BootStep.isConfAccess = 0) := by
  rcases kernel_entry_loopEntered h with ⟨xhc2, hfind2, rfl⟩
  rw [hfind] at hfind2
  injection hfind2 with hxe
  subst hxe
  have hportmem := port_enum_mem env
  have hport0 : (port_enum env).countP BootStep.isConfAccess = 0 :=
    countP_eq_zero_of_disjoint _ hportmem isPortStep_not_conf
  refine ⟨[BootStep.initQueue, BootStep.scanBus,
      BootStep.setIdtEntry XHCI_VECTOR, BootStep.loadIdt,
      BootStep.configureMsi XHCI_VECTOR, BootStep.readBar,
      BootStep.newController] ++
      (if xhc.read_vendor_id == 0x8086 then switch_ehci2xhci env xhc
       else []),
    [BootStep.runXhc, BootStep.setDefaultObserver] ++ port_enum env,
    ?_, ?_, ?_, ?_⟩
  · simp only [List.append_assoc, List.cons_append, List.nil_append]
  · rw [List.countP_append, hport0]
    decide
  · rintro ⟨hv, hie⟩
    have hifsw : (if xhc.read_vendor_id == 0x8086 then
        switch_ehci2xhci env xhc else []) =
        [BootStep.readConfReg 0xdc (env.conf xhc 0xdc),
         BootStep.writeConfReg 0xd8 (env.conf xhc 0xdc),
         BootStep.readConfReg 0xd4 (env.conf xhc 0xd4),
         BootStep.writeConfReg 0xd0 (env.conf xhc 0xd4)] := by
      rw [if_pos (by simp [hv])]
      unfold switch_ehci2xhci
      rw [if_neg (by simp [hie])]
    rw [hifsw]
    constructor
    · rw [List.countP_append]
      simp [List.countP_cons, BootStep.isConfAccess]
    · exact List.suffix_append _ _
  · intro hn
    have hifsw : (if xhc.read_vendor_id == 0x8086 then
        switch_ehci2xhci env xhc else []) = [] := by
      by_cases hv : xhc.read_vendor_id = 0x8086
      · have hie : intel_ehc_exist env.devices = false := by
          rcases Bool.eq_false_or_eq_true (intel_ehc_exist env.devices) with
            hie | hie
          · exact absurd ⟨hv, hie⟩ hn
          · exact hie
        rw [if_pos (by simp [hv])]
        unfold switch_ehci2xhci
        rw [if_pos (by simp [hie])]
      · rw [if_neg (by simp [hv])]
    rw [hifsw]
    rw [List.countP_append, List.countP_append, List.countP_append, hport0]
    decide

theorem port_enum_configurePort {env : BootEnv} {i : Nat} {ok : Bool}
    (h : BootStep.configurePort i ok ∈ port_enum env) :
    env.isConnected i = true ∧ ok = env.configurePortOk i ∧
    1 ≤ i ∧ i ≤ env.maxPorts := by
  unfold port_enum at h
  rw [List.mem_flatMap] at h
  rcases h with ⟨j, hj, hin⟩
  rw [List.mem_range'_1] at hj
  simp only [List.mem_cons] at hin
  rcases hin with hin | hin
  · exact absurd hin (by simp)
  · split at hin
    next hc =>
      simp only [List.mem_cons] at hin
      rcases hin with hin | hin
      · injection hin with h1 h2
        subst h1
        exact ⟨hc, h2, by omega, by omega⟩
      · split at hin
        · simp at hin
        · simp only [List.mem_cons, List.not_mem_nil, or_false] at hin
          exact absurd hin (by simp)
    next hc => simp at hin

theorem port_enum_checkPort {env : BootEnv} {i : Nat}
    (h1 : 1 ≤ i) (h2 : i ≤ env.maxPorts) :
    BootStep.checkPort i (env.isConnected i) ∈ port_enum env := by
  unfold port_enum
  rw [List.mem_flatMap]
  exact ⟨i, List.mem_range'_1.mpr ⟨h1, by omega⟩, List.mem_cons_self _ _⟩

theorem port_enum_logPortError {env : BootEnv} {i : Nat}
    (hc : env.isConnected i = true) (hk : env.configurePortOk i = false)
    (h1 : 1 ≤ i) (h2 : i ≤ env.maxPorts) :
    BootStep.logPortError i ∈ port_enum env := by
  unfold port_enum
  rw [List.mem_flatMap]
  refine ⟨i, List.mem_range'_1.mpr ⟨h1, by omega⟩, ?_⟩
  rw [if_pos hc, if_neg (by simp [hk])]
  simp

/-- C8: during boot-time port enumeration, `configure_port` is only ever
called on a port reporting `is_connected() == true` and within bounds
`1..=max_ports()`; every port in `1..=max_ports()` is visited (so a failing
port does not stop the loop); and a failing `configure_port` call is
followed by an error log for that port. -/
theorem claim_C8_port_enumeration (env : BootEnv) (t : List BootStep)
    (h : kernel_entry env = BootOutcome.loopEntered t) :
    (∀ i ok, BootStep.configurePort i ok ∈ t →
      env.isConnected i = true ∧ ok = env.configurePortOk i ∧
      1 ≤ i ∧ i ≤ env.maxPorts) ∧
    (∀ i, 1 ≤ i → i ≤ env.maxPorts →
      BootStep.checkPort i (env.isConnected i) ∈ t) ∧
    (∀ i, BootStep.configurePort i false ∈ t →
      BootStep.logPortError i ∈ t) := by
  rcases kernel_entry_loopEntered h with ⟨xhc, hfind, rfl⟩
  have hswmem := switch_if_mem env xhc
  have hport : ∀ i ok, BootStep.configurePort i ok ∈
      ([BootStep.initQueue, BootStep.scanBus,
        BootStep.setIdtEntry XHCI_VECTOR, BootStep.loadIdt,
        BootStep.configureMsi XHCI_VECTOR, BootStep.readBar,
        BootStep.newController]
       ++ (if xhc.read_vendor_id == 0x8086 then switch_ehci2xhci env xhc
           else [])
       ++ [BootStep.initXhc, BootStep.runXhc, BootStep.setDefaultObserver]
       ++ port_enum env) →
      BootStep.configurePort i ok ∈ port_enum env := by
    intro i ok hmem
    rw [List.mem_append] at hmem
    rcases hmem with hmem | hmem
    · rw [List.mem_append] at hmem
      rcases hmem with hmem | hmem
      · rw [List.mem_append] at hmem
        rcases hmem with hmem | hmem
        · simp at hmem
        · have := hswmem _ hmem
          simp [BootStep.isConfAccess] at this
      · simp at hmem
    · exact hmem
  refine ⟨?_, ?_, ?_⟩
  · intro i ok hmem
    exact port_enum_configurePort (hport i ok hmem)
  · intro i h1 h2
    rw [List.mem_append]
    exact Or.inr (port_enum_checkPort h1 h2)
  · intro i hmem
    rcases port_enum_configurePort (hport i false hmem) with ⟨hc, hk, h1, h2⟩
    rw [List.mem_append]
    exact Or.inr (port_enum_logPortError hc hk.symm h1 h2)

theorem findXhc_eq_none {devices : List Device}
    (h : ∀ d ∈ devices, isXhci d = false) : findXhc devices = none := by
  unfold findXhc
  rw [findXhcLoop_eq devices none]
  have hfind : devices.find? isIntelXhci = none := by
    rw [List.find?_eq_none]
    intro d hd
    simp [isIntelXhci, h d hd]
  have hfilt : devices.filter isXhci = [] := by
    rw [List.filter_eq_nil_iff]
    intro d hd
    simp [h d hd]
  rw [hfind, hfilt]
  rfl

theorem panic_step_iterate_halted (n : Nat) :
    panic_step^[n] PanicPhase.halted = PanicPhase.halted := by
  induction n with
  | zero => rfl
  | succ m ih =>
    rw [Function.iterate_succ_apply]
    exact ih

/-- C9: if the PCI scan finds no device whose class code matches
(0x0C, 0x03, 0x30), the boot sequence panics right after the scan (the
`unwrap` on the missing xHC) instead of entering the dispatch loop, and the
panic handler, after printing, halts the processor forever: every further
step leaves it halted. -/
theorem claim_C9_no_xhc_panics (env : BootEnv)
    (h : ∀ d ∈ env.devices, isXhci d = false) :
    kernel_entry env =
      BootOutcome.panicked [BootStep.initQueue, BootStep.scanBus] ∧
    (∀ n, panic_step^[n + 1] PanicPhase.printing = PanicPhase.halted) ∧
    (∀ n, panic_step^[n] PanicPhase.halted = PanicPhase.halted) := by
  refine ⟨?_, ?_, panic_step_iterate_halted⟩
  · unfold kernel_entry
    rw [findXhc_eq_none h]
  · intro n
    rw [Function.iterate_succ_apply]
    exact panic_step_iterate_halted n

/-- A device table with a single non-xHCI device (an Intel EHCI
controller), for the C9 witness. -/
def dev_ehci_only : Device :=
  { bus := 0, device := 3, function := 0, vendor_id := 0x8086,
    class_code := { base := 0x0c, sub := 0x03, interface := 0x20 },
    header_type := 0 }

/-- A boot environment whose device table contains no xHCI controller. -/
def env_no_xhc : BootEnv :=
  { devices := [dev_ehci_only], conf := fun _ _ => 0, maxPorts := 0,
    isConnected := fun _ => false, configurePortOk := fun _ => true }

/-- Witness for C9: on a table holding only an EHCI controller, the boot
sequence panics after the scan and the panic handler halts forever. -/
theorem claim_C9_no_xhc_panics_witness :
    kernel_entry env_no_xhc =
      BootOutcome.panicked [BootStep.initQueue, BootStep.scanBus] ∧
    (∀ n, panic_step^[n + 1] PanicPhase.printing = PanicPhase.halted) ∧
    (∀ n, panic_step^[n] PanicPhase.halted = PanicPhase.halted) :=
  claim_C9_no_xhc_panics env_no_xhc (by decide)

/-- An Intel xHCI controller (vendor 0x8086, class (0x0C, 0x03, 0x30)). -/
def dev_intel_xhc : Device :=
  { bus := 0, device := 4, function := 0, vendor_id := 0x8086,
    class_code := { base := 0x0c, sub := 0x03, interface := 0x30 },
    header_type := 0 }

/-- A boot environment with one Intel xHC and no EHCI controller. -/
def env_intel_only : BootEnv :=
  { devices := [dev_intel_xhc], conf := fun _ _ => 0, maxPorts := 0,
    isConnected := fun _ => false, configurePortOk := fun _ => true }

/-- The concrete boot trace of `env_intel_only` (no handoff, no ports). -/
def trace_intel_only : List BootStep :=
  [BootStep.initQueue, BootStep.scanBus, BootStep.setIdtEntry XHCI_VECTOR,
   BootStep.loadIdt, BootStep.configureMsi XHCI_VECTOR, BootStep.readBar,
   BootStep.newController, BootStep.initXhc, BootStep.runXhc,
   BootStep.setDefaultObserver]

/-- Witness for C6 on the concrete environment `env_intel_only`. -/
theorem claim_C6_boot_order_witness :
    (trace_intel_only.countP BootStep.isSetIdtEntry = 1 ∧
     trace_intel_only.countP BootStep.isLoadIdt = 1 ∧
     trace_intel_only.countP BootStep.isConfigureMsi = 1 ∧
     trace_intel_only.countP BootStep.isInitXhc = 1 ∧
     trace_intel_only.countP BootStep.isRunXhc = 1) ∧
    ∃ l1 l2 l3 l4 l5 l6,
      trace_intel_only = l1 ++ BootStep.setIdtEntry XHCI_VECTOR ::
        (l2 ++ BootStep.loadIdt :: (l3 ++ BootStep.configureMsi XHCI_VECTOR ::
        (l4 ++ BootStep.initXhc :: (l5 ++ BootStep.runXhc :: l6)))) :=
  claim_C6_boot_order env_intel_only trace_intel_only (by decide)

/-- A boot environment with an Intel xHC and an Intel EHCI controller, so
the EHCI-to-xHCI handoff fires; configuration reads return the offset. -/
def env_intel_pair : BootEnv :=
  { devices := [dev_intel_xhc, dev_ehci_only], conf := fun _ off => off,
    maxPorts := 0, isConnected := fun _ => false,
    configurePortOk := fun _ => true }

/-- The concrete boot trace of `env_intel_pair`, handoff included. -/
def trace_intel_pair : List BootStep :=
  [BootStep.initQueue, BootStep.scanBus, BootStep.setIdtEntry XHCI_VECTOR,
   BootStep.loadIdt, BootStep.configureMsi XHCI_VECTOR, BootStep.readBar,
   BootStep.newController, BootStep.readConfReg 0xdc 0xdc,
   BootStep.writeConfReg 0xd8 0xdc, BootStep.readConfReg 0xd4 0xd4,
   BootStep.writeConfReg 0xd0 0xd4, BootStep.initXhc, BootStep.runXhc,
   BootStep.setDefaultObserver]

/-- Witness for C7 on the concrete environment `env_intel_pair`. -/
theorem claim_C7_ehci_handoff_witness :
    ∃ pre post, trace_intel_pair = pre ++ BootStep.initXhc :: post ∧
      post.countP BootStep.isConfAccess = 0 ∧
      ((dev_intel_xhc.read_vendor_id = 0x8086 ∧
        intel_ehc_exist env_intel_pair.devices = true) →
        pre.countP BootStep.isConfAccess = 4 ∧
        [BootStep.readConfReg 0xdc (env_intel_pair.conf dev_intel_xhc 0xdc),
         BootStep.writeConfReg 0xd8 (env_intel_pair.conf dev_intel_xhc 0xdc),
         BootStep.readConfReg 0xd4 (env_intel_pair.conf dev_intel_xhc 0xd4),
         BootStep.writeConfReg 0xd0 (env_intel_pair.conf dev_intel_xhc 0xd4)]
          <:+ pre) ∧
      (¬(dev_intel_xhc.read_vendor_id = 0x8086 ∧
         intel_ehc_exist env_intel_pair.devices = true) →
        trace_intel_pair.countP BootStep.isConfAccess = 0) :=
  claim_C7_ehci_handoff env_intel_pair dev_intel_xhc trace_intel_pair
    (by decide) (by decide)

/-- A boot environment with two ports: port 1 connected but failing
`configure_port`, port 2 disconnected. -/
def env_ports : BootEnv :=
  { devices := [dev_intel_xhc], conf := fun _ _ => 0, maxPorts := 2,
    isConnected := fun i => i == 1, configurePortOk := fun _ => false }

/-- The concrete boot trace of `env_ports`. -/
def trace_ports : List BootStep :=
  [BootStep.initQueue, BootStep.scanBus, BootStep.setIdtEntry XHCI_VECTOR,
   BootStep.loadIdt, BootStep.configureMsi XHCI_VECTOR, BootStep.readBar,
   BootStep.newController, BootStep.initXhc, BootStep.runXhc,
   BootStep.setDefaultObserver, BootStep.checkPort 1 true,
   BootStep.configurePort 1 false, BootStep.logPortError 1,
   BootStep.checkPort 2 false]

/-- Witness for C8 on the concrete environment `env_ports`: the failing
connected port 1 is configured and logged, and the disconnected port 2 is
still checked (never configured). -/
theorem claim_C8_port_enumeration_witness :
    (env_ports.isConnected 1 = true ∧ false = env_ports.configurePortOk 1 ∧
      1 ≤ 1 ∧ 1 ≤ env_ports.maxPorts) ∧
    BootStep.checkPort 2 (env_ports.isConnected 2) ∈ trace_ports ∧
    BootStep.logPortError 1 ∈ trace_ports := by
  have h := claim_C8_port_enumeration env_ports trace_ports (by decide)
  exact ⟨h.1 1 false (by decide), h.2.1 2 (by decide) (by decide),
    h.2.2 1 (by decide)⟩
